import Mathlib

/-!
# SignBridge Storage — verification of spec claims against the code

Shallow embedding of the client-side logic of the signBridgeStorage CMS
(React admin frontend in `frontend/src/pages`, the unified import page,
the variants page, and the legacy vanilla-JS app), together with a
spec-modelled Asset Registry for the one claim whose deciding code (the
backend service) is not part of the source tree.

All definitions are translated directly from the JavaScript source;
JavaScript truthiness tests (`if (x)`) are modelled explicitly where the
code relies on them.
-/

/- ## Shared string helpers -/

/-- ASCII uppercase of a string, modelling JavaScript `String.prototype.toUpperCase`
on the ASCII names used by the app. -/
def toUpperStr (s : String) : String := ⟨s.data.map Char.toUpper⟩

/-- Is `pat` an initial segment of `l`? (helper for substring search). -/
def startsWithL : List Char → List Char → Bool
  | [], _ => true
  | _ :: _, [] => false
  | p :: ps, c :: cs => p == c && startsWithL ps cs

/-- Does `l` contain `pat` as a contiguous sublist? -/
def containsL (pat : List Char) : List Char → Bool
  | [] => startsWithL pat []
  | c :: cs => startsWithL pat (c :: cs) || containsL pat cs

/-- Does the message string mention `key` as a substring?  Used to formalise
"the reported error includes the orphaned key or row id". -/
def mentions (msg key : String) : Bool := containsL key.data msg.data

/- ## Data model (client-side view) -/

/-- An Asset Registry row as the client sees it in `GET /api/v1/cms/assets`
responses (`id` and `file_url` are the fields the workflow consults). -/
structure Asset where
  id : Nat
  file_url : String
deriving DecidableEq, Repr

/-- Response body of `POST /api/v1/files/upload` as consumed by the client:
`uploadRes.data.success` and `uploadRes.data.url`. -/
structure UploadResponse where
  success : Bool
  url : String
deriving DecidableEq, Repr

/-- The form values of the unified-import page (gloss, language, emotion,
type, priority, optional transitions), spread into the variant-create body. -/
structure FormValues where
  gloss_id : Nat
  language_id : String
  emotion : String
  vtype : String
  priority : Nat
  transition_in : Option String
  transition_out : Option String
deriving DecidableEq, Repr

/- ## Upload-and-Link workflow (`UnifiedAdd` page, `handleSubmit`) -/

/-- Where a `handleSubmit` run ends. -/
inductive SubmitOutcome where
  | validationFailed
  | noFile
  | uploadError
  | uploadNotSuccess
  | assetsFetchError
  | assetNotFound
  | variantPostFailed
  | linked
deriving DecidableEq, Repr

/-- The environment a single `handleSubmit` run observes: whether
`form.validateFields()` resolves, whether a file was chosen, the outcome of
the upload request (`none` = the request threw), the asset-list response
(`none` = the request threw), and whether the variant POST succeeds. -/
structure SubmitEnv where
  validateOk : Bool
  fileChosen : Bool
  uploadResult : Option UploadResponse
  assetsResult : Option (List Asset)
  values : FormValues
  variantPostOk : Bool
deriving Repr

/-- Observable effects of one `handleSubmit` run: which requests were issued,
whether the blob was stored (upload request succeeded with `success: true`),
the `asset_id` carried by the variant POST if one was sent, the final
outcome, and the dynamic-island message shown to the operator. -/
structure SubmitTrace where
  uploadRequested : Bool
  blobStored : Bool
  variantRequested : Option Nat
  outcome : SubmitOutcome
  islandMessage : String
deriving DecidableEq, Repr

/-- The asset-lookup step of `handleSubmit`:
`assetsRes.data.find(a => a.file_url === uploadRes.data.url)`. -/
def findAssetByUrl (assets : List Asset) (url : String) : Option Asset :=
  assets.find? (fun a => a.file_url == url)

/-- Embeds `handleSubmit` from the `UnifiedAdd` page, step by step:
validate form, require a file, `POST /api/v1/files/upload`, require
`success`, `GET /api/v1/cms/assets`, find the row whose `file_url` equals
the uploaded URL, then `POST /api/v1/cms/variants` with the id of that row.
Every thrown error lands in the single `catch`, which sets the island
message to the constant `"Error occurred"`. -/
def runSubmit (env : SubmitEnv) : SubmitTrace :=
  if env.validateOk = false then
    ⟨false, false, none, .validationFailed, "Error occurred"⟩
  else if env.fileChosen = false then
    ⟨false, false, none, .noFile, ""⟩
  else
    match env.uploadResult with
    | none => ⟨true, false, none, .uploadError, "Error occurred"⟩
    | some r =>
      if r.success = false then
        ⟨true, false, none, .uploadNotSuccess, "Error occurred"⟩
      else
        match env.assetsResult with
        | none => ⟨true, true, none, .assetsFetchError, "Error occurred"⟩
        | some assets =>
          match findAssetByUrl assets r.url with
          | none => ⟨true, true, none, .assetNotFound, "Error occurred"⟩
          | some a =>
            if env.variantPostOk then
              ⟨true, true, some a.id, .linked, "All Done! Variant Created."⟩
            else
              ⟨true, true, some a.id, .variantPostFailed, "Error occurred"⟩

/- ## Gloss creation paths -/

/-- Embeds `handleCreateGloss` from the `UnifiedAdd` page:
`if (!newGlossName) return;` then `POST /api/v1/cms/glosses` with
`name: newGlossName.toUpperCase()`.  Returns the `name` submitted, or
`none` when no request is issued. -/
def unifiedCreateGlossName (newGlossName : String) : Option String :=
  if newGlossName.isEmpty then none else some (toUpperStr newGlossName)

/-- Embeds `handleCreateGloss` from the legacy app (`frontend_legacy/app.js`):
the posted `name` is the result of `.toUpperCase()` on the form field `name`. -/
def legacyCreateGlossName (entered : String) : String := toUpperStr entered

/-- Embeds `handleOk` (create branch) from the `Glosses` page: the page posts
the validated form `values` unchanged, so the submitted `name` is exactly
the name the operator entered. -/
def glossesPageCreateName (entered : String) : String := entered

/- ## Asset Registry (spec-modelled: backend service absent from the tree) -/

/-- An Asset Registry row (backend view): id, storage URL, content hash. -/
structure AssetRow where
  id : Nat
  url : String
  hash : String
deriving DecidableEq, Repr

/-- Asset Registry table state: rows plus next fresh id. -/
structure RegistryState where
  rows : List AssetRow
  nextId : Nat
deriving DecidableEq, Repr

/-- Number of registry rows carrying the given content hash. -/
def countHash (st : RegistryState) (h : String) : Nat :=
  (st.rows.filter (fun r => r.hash == h)).length

/-- Modelled from the spec: the backend Asset Registry operation
`create(url, hash, metadata) -> Asset` (the backend service is not
under the source tree; only its HTTP callers are).  Per section 4.2 the
operation is idempotent by hash: if an Asset with that hash exists, return
the existing row rather than duplicating; otherwise insert a fresh row. -/
def registryCreate (st : RegistryState) (url hash : String) : AssetRow × RegistryState :=
  match st.rows.find? (fun r => r.hash == hash) with
  | some r => (r, st)
  | none =>
    let r : AssetRow := ⟨st.nextId, url, hash⟩
    (r, ⟨st.rows ++ [r], st.nextId + 1⟩)

/- ## Query/Search Facade (`Search` page, `handleSearch`) -/

/-- A query-string parameter value: string-valued or numeric. -/
inductive PVal where
  | s (v : String)
  | n (v : ℚ)
deriving DecidableEq, Repr

/-- Filter state of the `Search` page: `query` starts as the empty string,
the other filters start as `null` (`none`), and `sortBy` starts as
`-created_at`. -/
structure SearchFilters where
  query : String
  language : Option String
  emotion : Option String
  minFps : Option ℚ
  maxFps : Option ℚ
  minDuration : Option ℚ
  maxDuration : Option ℚ
  sortBy : String
deriving Repr

/-- Embeds `if (x) params.name = x` for an optional string filter: the
parameter is included exactly when the value is non-null and truthy
(non-empty). -/
def optStrParam (name : String) (v : Option String) : List (String × PVal) :=
  match v with
  | none => []
  | some s => if s.isEmpty then [] else [(name, PVal.s s)]

/-- Embeds `if (x) params.name = x` for an optional numeric filter: included
exactly when the value is non-null and truthy (non-zero). -/
def optNumParam (name : String) (v : Option ℚ) : List (String × PVal) :=
  match v with
  | none => []
  | some q => if q = 0 then [] else [(name, PVal.n q)]

/-- The `params` object built by `handleSearch` and sent, in one request, to
`GET /api/v1/cms/search`: each filter is added only when truthy, in source
order `q, language_id, emotion, min_fps, max_fps, min_duration,
max_duration, sort_by`. -/
def buildSearchParams (f : SearchFilters) : List (String × PVal) :=
  (if f.query.isEmpty then [] else [("q", PVal.s f.query)]) ++
  optStrParam "language_id" f.language ++
  optStrParam "emotion" f.emotion ++
  optNumParam "min_fps" f.minFps ++
  optNumParam "max_fps" f.maxFps ++
  optNumParam "min_duration" f.minDuration ++
  optNumParam "max_duration" f.maxDuration ++
  (if f.sortBy.isEmpty then [] else [("sort_by", PVal.s f.sortBy)])

/-- The four options offered by the sort `Select` on the `Search` page. -/
def sortOptions : List String :=
  ["-created_at", "created_at", "duration", "-duration"]

/-- Initial `sortBy` value (newest-first), from `useState` in `Search.jsx`. -/
def initialSortBy : String := "-created_at"

/-- The values the `sortBy` state can reach: it starts at `initialSortBy`
and each `onChange={setSortBy}` of the `Select` replaces it with one of the
four offered option values. -/
inductive SortReachable : String → Prop
  | init : SortReachable initialSortBy
  | select (s v : String) : SortReachable s → v ∈ sortOptions → SortReachable v

/- ## Languages page (`handleEdit`/`handleOk`) -/

/-- A Language row: `code` (primary key) and display `name`. -/
structure LanguageRow where
  code : String
  name : String
deriving DecidableEq, Repr

/-- Field values of the language edit form. -/
structure LangForm where
  code : String
  name : String
deriving DecidableEq, Repr

/-- Embeds `handleEdit(record)`: `form.setFieldsValue(record)` seeds the form
with the fields of the record before the modal opens. -/
def startEditLanguage (record : LanguageRow) : LangForm := ⟨record.code, record.name⟩

/-- While editing, the code `Input` is `disabled={!!editingLang}`, so the
only field edits the operator can perform update the `name`. -/
inductive LangFormEvent where
  | setName (s : String)
deriving DecidableEq, Repr

/-- Apply one form edit. -/
def applyLangEvent (f : LangForm) (e : LangFormEvent) : LangForm :=
  match e with
  | .setName s => ⟨f.code, s⟩

/-- Apply a sequence of form edits. -/
def applyLangEvents (f : LangForm) : List LangFormEvent → LangForm
  | [] => f
  | e :: es => applyLangEvents (applyLangEvent f e) es

/-- A PUT request issued by `handleOk` when `editingLang` is set: the URL is
`/api/v1/cms/languages/` followed by `editingLang.code`, the body is the
validated form values. -/
structure LangPutRequest where
  url : String
  body : LangForm
deriving DecidableEq, Repr

/-- Build the update request from the record being edited and the current
form values. -/
def languagesUpdateRequest (editing : LanguageRow) (values : LangForm) : LangPutRequest :=
  ⟨"/api/v1/cms/languages/" ++ editing.code, values⟩

/- ## Variants page (delete dialog) -/

/-- The delete-dialog state of the `Variants` page: visibility, the variant
id targeted, and the "also delete the underlying file" checkbox. -/
structure DeleteDialogState where
  visible : Bool
  target : Option Nat
  withFile : Bool
deriving DecidableEq, Repr

/-- Embeds `handleDelete(id)`: `setDeleteTarget(id); setDeleteWithFile(false);
setIsDeleteModalVisible(true)`. -/
def openDeleteDialog (id : Nat) (_s : DeleteDialogState) : DeleteDialogState :=
  ⟨true, some id, false⟩

/-- The checkbox `onChange={e => setDeleteWithFile(e.target.checked)}`. -/
def setDeleteWithFile (b : Bool) (s : DeleteDialogState) : DeleteDialogState :=
  ⟨s.visible, s.target, b⟩

/-- Embeds `confirmDelete`: the single request
`DELETE /api/v1/cms/variants/{deleteTarget}?delete_file={deleteWithFile}`. -/
def confirmDeleteRequest (s : DeleteDialogState) : Option String :=
  s.target.map (fun id =>
    "/api/v1/cms/variants/" ++ toString id ++ "?delete_file=" ++
      (if s.withFile then "true" else "false"))

/- ## formatFileSize (Files page and legacy app) -/

/-- Unit array `sizes` of `formatFileSize`: `B`, `KB`, `MB`, `GB`. -/
def sizeUnits : List String := ["B", "KB", "MB", "GB"]

/-- Embeds `Math.round(x * 100) / 100`: round to two decimal places
(JavaScript `Math.round` rounds half up, as does `round` on ℚ). -/
def round2 (q : ℚ) : ℚ := ((round (q * 100) : ℤ) : ℚ) / 100

/-- Embeds `formatFileSize(bytes)`: the string `0 B` for zero; otherwise
`i = Math.floor(Math.log(bytes) / Math.log(1024))` (embedded as the exact
`Nat.log 1024`), then `Math.round(bytes / 1024^i * 100) / 100` paired with
`sizes[i]`.  An out-of-bounds index (JavaScript would produce `undefined`)
is embedded as `none`; the result pair is the displayed number and unit. -/
def formatFileSize (bytes : Nat) : Option (ℚ × String) :=
  if bytes = 0 then some (0, "B")
  else
    match sizeUnits.get? (Nat.log 1024 bytes) with
    | some u => some (round2 ((bytes : ℚ) / (1024 : ℚ) ^ Nat.log 1024 bytes), u)
    | none => none

/- ## Concrete runs used by witnesses and counterexamples -/

/-- Concrete successful run used by the C1 witness. -/
def c1Env : SubmitEnv :=
  ⟨true, true, some ⟨true, "https://storage/sign/hello.vrma"⟩,
    some [⟨3, "https://storage/sign/other.vrma"⟩, ⟨7, "https://storage/sign/hello.vrma"⟩],
    ⟨1, "ru-RSL", "Neutral", "lexical", 50, none, none⟩, true⟩

/-- Concrete run failing after the blob was stored: the asset lookup after a
successful upload finds nothing. -/
def c2FailAssetEnv : SubmitEnv :=
  ⟨true, true, some ⟨true, "https://storage/sign/hello.vrma"⟩, some [],
    ⟨1, "ru-RSL", "Neutral", "lexical", 50, none, none⟩, true⟩

/-- Concrete run failing after the blob was stored, at a different step: the
asset is resolved but the variant POST fails. -/
def c2FailVariantEnv : SubmitEnv :=
  ⟨true, true, some ⟨true, "https://storage/sign/hello.vrma"⟩,
    some [⟨7, "https://storage/sign/hello.vrma"⟩],
    ⟨1, "ru-RSL", "Neutral", "lexical", 50, none, none⟩, false⟩

/-- Concrete run used by the C3 witness. -/
def c3Env : SubmitEnv :=
  ⟨true, true, some ⟨true, "u"⟩, some [⟨9, "u"⟩],
    ⟨1, "ru-RSL", "Neutral", "lexical", 50, none, none⟩, true⟩

/-!
## Theorems
-/

/- ### C1 — asset id discovered by URL scan -/

/-- C1: in every run of the Upload-and-Link workflow, whenever a
Variant-create request is issued (carrying asset id `aid`), the upload
response was successful and `aid` is exactly the id of the entry of the
re-fetched asset list whose `file_url` equals the URL returned by the
upload response. -/
theorem upload_link_asset_id_from_url_scan (env : SubmitEnv) (aid : Nat)
    (h : (runSubmit env).variantRequested = some aid) :
    ∃ r assets a, env.uploadResult = some r ∧ r.success = true ∧
      env.assetsResult = some assets ∧
      findAssetByUrl assets r.url = some a ∧ aid = a.id := by
  rcases env with ⟨v, fc, ur, ar, vals, vp⟩
  cases v with
  | false => simp [runSubmit] at h
  | true =>
  cases fc with
  | false => simp [runSubmit] at h
  | true =>
  cases ur with
  | none => simp [runSubmit] at h
  | some r =>
  rcases r with ⟨succ, url⟩
  cases succ with
  | false => simp [runSubmit] at h
  | true =>
  cases ar with
  | none => simp [runSubmit] at h
  | some assets =>
  cases hfind : findAssetByUrl assets url with
  | none => simp [runSubmit, hfind] at h
  | some a =>
  cases vp with
  | false =>
    simp [runSubmit, hfind] at h
    exact ⟨⟨true, url⟩, assets, a, rfl, rfl, rfl, hfind, h.symm⟩
  | true =>
    simp [runSubmit, hfind] at h
    exact ⟨⟨true, url⟩, assets, a, rfl, rfl, rfl, hfind, h.symm⟩

/-- Witness for C1 at a concrete run: the variant request carries id 7, the
id of the asset whose URL matches the upload response. -/
theorem upload_link_asset_id_from_url_scan_witness :
    ∃ r assets a, c1Env.uploadResult = some r ∧ r.success = true ∧
      c1Env.assetsResult = some assets ∧
      findAssetByUrl assets r.url = some a ∧ 7 = a.id :=
  upload_link_asset_id_from_url_scan c1Env 7 (by decide)

/- ### C2 — error reporting on partial failure -/

/-- C2 counterexample: a run fails after the blob was stored, yet the
message shown to the operator mentions neither the orphaned key (the stored
URL does not occur in it) nor the failing step (a run failing at a
different step produces the identical message). -/
theorem upload_link_error_report_cex :
    (runSubmit c2FailAssetEnv).blobStored = true ∧
    (runSubmit c2FailAssetEnv).outcome ≠ SubmitOutcome.linked ∧
    mentions (runSubmit c2FailAssetEnv).islandMessage "hello.vrma" = false ∧
    (runSubmit c2FailVariantEnv).blobStored = true ∧
    (runSubmit c2FailVariantEnv).outcome ≠ SubmitOutcome.linked ∧
    (runSubmit c2FailAssetEnv).outcome ≠ (runSubmit c2FailVariantEnv).outcome ∧
    (runSubmit c2FailAssetEnv).islandMessage = (runSubmit c2FailVariantEnv).islandMessage := by
  decide

/-- C2 (amended): whenever an Upload-and-Link run fails after the blob was
stored, the message reported to the operator is the fixed string
`Error occurred`, independent of the failing step and of the orphaned key. -/
theorem upload_link_error_message_generic (env : SubmitEnv)
    (hb : (runSubmit env).blobStored = true)
    (hl : (runSubmit env).outcome ≠ SubmitOutcome.linked) :
    (runSubmit env).islandMessage = "Error occurred" := by
  rcases env with ⟨v, fc, ur, ar, vals, vp⟩
  cases v with
  | false => simp [runSubmit] at hb
  | true =>
  cases fc with
  | false => simp [runSubmit] at hb
  | true =>
  cases ur with
  | none => simp [runSubmit] at hb
  | some r =>
  rcases r with ⟨succ, url⟩
  cases succ with
  | false => simp [runSubmit] at hb
  | true =>
  cases ar with
  | none => simp [runSubmit]
  | some assets =>
  cases hfind : findAssetByUrl assets url with
  | none => simp [runSubmit, hfind]
  | some a =>
  cases vp with
  | true => simp [runSubmit, hfind] at hl
  | false => simp [runSubmit, hfind]

/-- Witness for the amended C2 at a concrete failing run. -/
theorem upload_link_error_message_generic_witness :
    (runSubmit c2FailAssetEnv).islandMessage = "Error occurred" :=
  upload_link_error_message_generic c2FailAssetEnv (by decide) (by decide)

/- ### C3 — variant creation gated on upload success and asset resolution -/

/-- C3: a Variant-create request is issued in a run exactly when the form
validated, a file was chosen, the upload request succeeded with
`success: true`, the asset list was fetched, and an asset matching the
uploaded URL was resolved; in particular no Variant-create request is ever
sent when the upload fails, reports non-success, or no Asset is resolved. -/
theorem variant_create_gated_on_upload_and_asset (env : SubmitEnv) :
    (runSubmit env).variantRequested.isSome = true ↔
      env.validateOk = true ∧ env.fileChosen = true ∧
      ∃ r assets a, env.uploadResult = some r ∧ r.success = true ∧
        env.assetsResult = some assets ∧ findAssetByUrl assets r.url = some a := by
  rcases env with ⟨v, fc, ur, ar, vals, vp⟩
  cases v with
  | false => simp [runSubmit]
  | true =>
  cases fc with
  | false => simp [runSubmit]
  | true =>
  cases ur with
  | none => simp [runSubmit]
  | some r =>
  rcases r with ⟨succ, url⟩
  cases succ with
  | false => simp [runSubmit]
  | true =>
  cases ar with
  | none => simp [runSubmit]
  | some assets =>
  cases hfind : findAssetByUrl assets url with
  | none => simp [runSubmit, hfind]
  | some a =>
  cases vp with
  | true => simp [runSubmit, hfind]
  | false => simp [runSubmit, hfind]

/-- Witness for C3: at a concrete run with a successful upload and a
resolvable asset, a variant request is issued. -/
theorem variant_create_gated_on_upload_and_asset_witness :
    (runSubmit c3Env).variantRequested.isSome = true :=
  (variant_create_gated_on_upload_and_asset c3Env).mpr
    ⟨rfl, rfl, ⟨true, "u"⟩, [⟨9, "u"⟩], ⟨9, "u"⟩, rfl, rfl, rfl, by decide⟩

/- ### C4 — gloss name normalization on create -/

/-- C4 counterexample: the Glosses page create path submits the entered
name unchanged, so for the entered name `hello` the submitted name is not
the uppercase normalization `HELLO`. -/
theorem gloss_create_uppercase_cex :
    glossesPageCreateName "hello" ≠ toUpperStr "hello" := by
  decide

/-- C4 (amended): the `UnifiedAdd` inline-create path and the legacy app
submit the uppercase normalization of the entered gloss name; the Glosses
page create path submits the name exactly as the operator entered it. -/
theorem gloss_create_name_paths (s : String) :
    legacyCreateGlossName s = toUpperStr s ∧
    (¬s.isEmpty → unifiedCreateGlossName s = some (toUpperStr s)) ∧
    glossesPageCreateName s = s := by
  refine ⟨rfl, ?_, rfl⟩
  intro h
  unfold unifiedCreateGlossName
  rw [if_neg h]

/-- Witness for the amended C4 at the concrete entered name `hello`. -/
theorem gloss_create_name_paths_witness :
    legacyCreateGlossName "hello" = toUpperStr "hello" ∧
    unifiedCreateGlossName "hello" = some (toUpperStr "hello") :=
  ⟨(gloss_create_name_paths "hello").1,
   (gloss_create_name_paths "hello").2.1 (by decide)⟩

/- ### C5 — Asset Registry create is idempotent by hash -/

/-- A registry with no row of hash `h` has a failing hash lookup. -/
lemma registry_find_none_of_countHash_zero (st : RegistryState) (h : String)
    (h0 : countHash st h = 0) :
    st.rows.find? (fun r => r.hash == h) = none := by
  have hnil : st.rows.filter (fun r => r.hash == h) = [] :=
    List.length_eq_zero.mp h0
  rw [List.find?_eq_none]
  intro r hr hp
  have : r ∈ st.rows.filter (fun r => r.hash == h) := List.mem_filter.mpr ⟨hr, hp⟩
  rw [hnil] at this
  exact absurd this (List.not_mem_nil r)

/-- A registry with a row of hash `h` has a successful hash lookup, and the
row it returns carries hash `h` and is already in the table. -/
lemma registry_find_some_of_countHash_pos (st : RegistryState) (h : String)
    (hp : 0 < countHash st h) :
    ∃ r, st.rows.find? (fun x => x.hash == h) = some r ∧ r ∈ st.rows ∧ r.hash = h := by
  cases hf : st.rows.find? (fun x => x.hash == h) with
  | none =>
    have : countHash st h = 0 := by
      have hnil : st.rows.filter (fun x => x.hash == h) = [] := by
        rw [List.filter_eq_nil_iff]
        intro a ha
        exact List.find?_eq_none.mp hf a ha
      simp [countHash, hnil]
    omega
  | some r =>
    refine ⟨r, rfl, List.mem_of_find?_eq_some hf, ?_⟩
    have := List.find?_some hf
    exact eq_of_beq this

/-- C5: the Asset Registry create operation is idempotent by content hash.
If a row with the hash already exists, create returns that existing row and
leaves the table unchanged; and starting from a table with no row of the
hash, two create calls with the same hash (the serialization of a
concurrent double upload) leave exactly one row with that hash, with the
second call returning the row made by the first. -/
theorem registryCreate_idempotent_by_hash :
    (∀ st u hsh, 0 < countHash st hsh →
      (registryCreate st u hsh).2 = st ∧ (registryCreate st u hsh).1 ∈ st.rows ∧
        (registryCreate st u hsh).1.hash = hsh) ∧
    (∀ st u1 u2 hsh, countHash st hsh = 0 →
      countHash (registryCreate (registryCreate st u1 hsh).2 u2 hsh).2 hsh = 1 ∧
      (registryCreate (registryCreate st u1 hsh).2 u2 hsh).2 = (registryCreate st u1 hsh).2 ∧
      (registryCreate (registryCreate st u1 hsh).2 u2 hsh).1 = (registryCreate st u1 hsh).1) := by
  constructor
  · intro st u hsh hp
    obtain ⟨r, hf, hmem, hh⟩ := registry_find_some_of_countHash_pos st hsh hp
    refine ⟨?_, ?_, ?_⟩ <;> simp [registryCreate, hf, hmem, hh]
  · intro st u1 u2 hsh h0
    have hf : st.rows.find? (fun r => r.hash == hsh) = none :=
      registry_find_none_of_countHash_zero st hsh h0
    have h1 : registryCreate st u1 hsh =
        (⟨st.nextId, u1, hsh⟩, ⟨st.rows ++ [⟨st.nextId, u1, hsh⟩], st.nextId + 1⟩) := by
      simp [registryCreate, hf]
    have hf2 : (st.rows ++ [(⟨st.nextId, u1, hsh⟩ : AssetRow)]).find?
        (fun r => r.hash == hsh) = some ⟨st.nextId, u1, hsh⟩ := by
      rw [List.find?_append, hf]
      simp
    have h2 : registryCreate (registryCreate st u1 hsh).2 u2 hsh =
        ((⟨st.nextId, u1, hsh⟩ : AssetRow),
          (⟨st.rows ++ [⟨st.nextId, u1, hsh⟩], st.nextId + 1⟩ : RegistryState)) := by
      rw [h1]
      simp [registryCreate, hf2]
    have hcount : countHash (⟨st.rows ++ [⟨st.nextId, u1, hsh⟩], st.nextId + 1⟩ : RegistryState) hsh = 1 := by
      have hnil : st.rows.filter (fun r => r.hash == hsh) = [] :=
        List.length_eq_zero.mp h0
      simp [countHash, List.filter_append, hnil]
    refine ⟨?_, ?_, ?_⟩
    · rw [h2]
      exact hcount
    · rw [h2, h1]
    · rw [h2, h1]

/-- Witness for C5 at concrete registries: creating with a hash already
present leaves the one-row table unchanged, and a double create on an empty
table yields exactly one row with that hash. -/
theorem registryCreate_idempotent_by_hash_witness :
    (registryCreate ⟨[⟨0, "u0", "h"⟩], 1⟩ "u1" "h").2 = ⟨[⟨0, "u0", "h"⟩], 1⟩ ∧
    countHash (registryCreate (registryCreate ⟨[], 0⟩ "a" "h").2 "b" "h").2 "h" = 1 :=
  ⟨(registryCreate_idempotent_by_hash.1 ⟨[⟨0, "u0", "h"⟩], 1⟩ "u1" "h" (by decide)).1,
   (registryCreate_idempotent_by_hash.2 ⟨[], 0⟩ "a" "b" "h" (by decide)).1⟩

/- ### C6 — search request contains exactly the set filters -/

/-- Membership in a conditional singleton list. -/
lemma mem_ite_nil_singleton {α : Type _} (c : Prop) [Decidable c] (x p : α) :
    (p ∈ if c then ([] : List α) else [x]) ↔ ¬c ∧ p = x := by
  by_cases h : c <;> simp [h]

/-- Membership in an optional string parameter. -/
lemma mem_optStrParam (name : String) (v : Option String) (p : String × PVal) :
    p ∈ optStrParam name v ↔
      ∃ s, v = some s ∧ s.isEmpty = false ∧ p = (name, PVal.s s) := by
  cases v with
  | none => simp [optStrParam]
  | some s => by_cases h : s.isEmpty <;> simp [optStrParam, h]

/-- Membership in an optional numeric parameter. -/
lemma mem_optNumParam (name : String) (v : Option ℚ) (p : String × PVal) :
    p ∈ optNumParam name v ↔
      ∃ q, v = some q ∧ q ≠ 0 ∧ p = (name, PVal.n q) := by
  cases v with
  | none => simp [optNumParam]
  | some q => by_cases h : q = 0 <;> simp [optNumParam, h]

/-- C6: the single request sent to the search endpoint carries exactly the
filters that are set (truthy): a pair is among the built parameters exactly
when it is one of `q`, `language_id`, `emotion`, `min_fps`, `max_fps`,
`min_duration`, `max_duration` (or the sort key) with its set value, and an
unset filter contributes no parameter at all. -/
theorem search_request_params_exact (f : SearchFilters) (p : String × PVal) :
    p ∈ buildSearchParams f ↔
      (f.query.isEmpty = false ∧ p = ("q", PVal.s f.query)) ∨
      (∃ s, f.language = some s ∧ s.isEmpty = false ∧ p = ("language_id", PVal.s s)) ∨
      (∃ s, f.emotion = some s ∧ s.isEmpty = false ∧ p = ("emotion", PVal.s s)) ∨
      (∃ q, f.minFps = some q ∧ q ≠ 0 ∧ p = ("min_fps", PVal.n q)) ∨
      (∃ q, f.maxFps = some q ∧ q ≠ 0 ∧ p = ("max_fps", PVal.n q)) ∨
      (∃ q, f.minDuration = some q ∧ q ≠ 0 ∧ p = ("min_duration", PVal.n q)) ∨
      (∃ q, f.maxDuration = some q ∧ q ≠ 0 ∧ p = ("max_duration", PVal.n q)) ∨
      (f.sortBy.isEmpty = false ∧ p = ("sort_by", PVal.s f.sortBy)) := by
  simp only [buildSearchParams, List.mem_append, mem_ite_nil_singleton,
    mem_optStrParam, mem_optNumParam, Bool.not_eq_true, or_assoc]

/- ### C7 — language code immutable on update -/

/-- Form edits while editing a language never change the code field. -/
lemma applyLangEvents_code (evs : List LangFormEvent) :
    ∀ f : LangForm, (applyLangEvents f evs).code = f.code := by
  induction evs with
  | nil => intro f; rfl
  | cons e es ih =>
    intro f
    cases e with
    | setName s => exact ih ⟨f.code, s⟩

/-- C7: for every language-edit session (any sequence of edits the form
allows, the code input being disabled while editing), the update request
targets the URL of the existing code and its body still carries that code,
so no in-place primary-key mutation is ever issued. -/
theorem language_code_immutable_on_update (record : LanguageRow) (evs : List LangFormEvent) :
    (languagesUpdateRequest record (applyLangEvents (startEditLanguage record) evs)).url =
      "/api/v1/cms/languages/" ++ record.code ∧
    (languagesUpdateRequest record (applyLangEvents (startEditLanguage record) evs)).body.code =
      record.code := by
  exact ⟨rfl, applyLangEvents_code evs (startEditLanguage record)⟩

/- ### C8 — variant delete flag reset and request shape -/

/-- C8: opening the delete dialog resets the delete-file flag to `false` and
records the target id, and confirming sends exactly one DELETE request whose
`delete_file` query parameter equals the current checkbox choice. -/
theorem variant_delete_flag_and_request (id : Nat) (s : DeleteDialogState) :
    (openDeleteDialog id s).withFile = false ∧
    (openDeleteDialog id s).target = some id ∧
    ∀ b, confirmDeleteRequest (setDeleteWithFile b (openDeleteDialog id s)) =
      some ("/api/v1/cms/variants/" ++ toString id ++ "?delete_file=" ++
        (if b then "true" else "false")) := by
  exact ⟨rfl, rfl, fun b => rfl⟩

/- ### C9 — sort key drawn from a fixed enumeration -/

/-- C9: the initial sort key is newest-first and every value the `sortBy`
state can reach is drawn from the fixed four-element enumeration of the
sort `Select`. -/
theorem sortBy_drawn_from_fixed_enum (s : String) (h : SortReachable s) :
    s ∈ sortOptions := by
  induction h with
  | init => decide
  | select s v h1 h2 ih => exact h2

/-- Witness for C9: the duration-ascending key is reachable and lies in the
enumeration. -/
theorem sortBy_drawn_from_fixed_enum_witness : ("duration" : String) ∈ sortOptions :=
  sortBy_drawn_from_fixed_enum "duration"
    (SortReachable.select initialSortBy "duration" SortReachable.init (by decide))

/- ### C10 — formatFileSize total and unit-safe on its domain -/

/-- C10: formatFileSize succeeds exactly on byte counts below 1024^4 (plus
zero), returns the zero-bytes pair at zero, and otherwise yields a number
rounded to two decimal places (denominator dividing 100) together with a
unit drawn from the four-element unit array; the bound is what keeps the
unit-array index in range. -/
theorem formatFileSize_safe (n : Nat) :
    ((formatFileSize n).isSome = true ↔ (n = 0 ∨ n < 1024 ^ 4)) ∧
    (n = 0 → formatFileSize n = some (0, "B")) ∧
    (∀ q u, formatFileSize n = some (q, u) → u ∈ sizeUnits ∧ (q * 100).den = 1) := by
  by_cases hn : n = 0
  · subst hn
    refine ⟨by simp [formatFileSize], fun _ => by simp [formatFileSize], ?_⟩
    intro q u h
    simp [formatFileSize] at h
    obtain ⟨hq, hu⟩ := h
    subst hq
    subst hu
    exact ⟨by decide, by norm_num⟩
  · have hb : (1 : ℕ) < 1024 := by norm_num
    refine ⟨⟨?_, ?_⟩, fun h0 => absurd h0 hn, ?_⟩
    · intro hs
      right
      rw [formatFileSize, if_neg hn] at hs
      by_cases hlog : Nat.log 1024 n < 4
      · exact (Nat.lt_pow_iff_log_lt hb hn).mpr hlog
      · have hg : sizeUnits.get? (Nat.log 1024 n) = none :=
          List.get?_eq_none.mpr (by simpa [sizeUnits] using not_lt.mp hlog)
        rw [hg] at hs
        simp at hs
    · intro hlt
      rcases hlt with h0 | hlt
      · exact absurd h0 hn
      · have hlog : Nat.log 1024 n < 4 := (Nat.lt_pow_iff_log_lt hb hn).mp hlt
        have hlen : Nat.log 1024 n < sizeUnits.length := by simpa [sizeUnits] using hlog
        rw [formatFileSize, if_neg hn, List.get?_eq_get hlen]
        rfl
    · intro q u h
      rw [formatFileSize, if_neg hn] at h
      cases hg : sizeUnits.get? (Nat.log 1024 n) with
      | none =>
        rw [hg] at h
        simp at h
      | some u' =>
        rw [hg] at h
        simp only [Option.some.injEq, Prod.mk.injEq] at h
        obtain ⟨hq, hu⟩ := h
        constructor
        · rw [← hu]
          exact List.get?_mem hg
        · rw [← hq]
          unfold round2
          rw [div_mul_cancel₀]
          · exact Rat.den_intCast _
          · norm_num

/-- Witness for C10 at concrete byte counts: zero formats to the zero-bytes
pair with a unit in the array, and 2048 bytes formats successfully. -/
theorem formatFileSize_safe_witness :
    formatFileSize 0 = some (0, "B") ∧
    (formatFileSize 2048).isSome = true ∧
    ("B" : String) ∈ sizeUnits := by
  refine ⟨(formatFileSize_safe 0).2.1 rfl,
    ((formatFileSize_safe 2048).1).mpr (Or.inr (by norm_num)), ?_⟩
  exact ((formatFileSize_safe 0).2.2 0 "B" ((formatFileSize_safe 0).2.1 rfl)).1
